import Mathlib

/-!
Verification of the company-enrichment pipeline (langgraph agent).

The definitions below are a shallow embedding of the TypeScript sources:
the state model and step functions of the main pipeline variant
(processQuery / enrichCompanyData / searchManagerLeads / summarizeFindings,
compiled into a linear StateGraph), the Apollo enrichment tool
(EnrichCompanyTool.ts), the domain validator (DOMAIN_REGEX), and the
processCompany entry point.  External capabilities (language model, web
search, the Apollo HTTP layer) are modelled as per-run stubbed responses
threaded through an Oracle record.
-/

/-- A chat message (HumanMessage / AIMessage): a role tag plus text content. -/
structure Message where
  role : String
  content : String
deriving DecidableEq, Repr

/-- A lead record, as in types.ts: name, role, linkedin URL, optional email. -/
structure Lead where
  name : String
  role : String
  linkedin : String
  email : Option String
deriving DecidableEq, Repr

/-- A Tavily search result record: title, url, content. -/
structure SearchResult where
  title : String
  url : String
  content : String
deriving DecidableEq, Repr

/-- A JSON value, used for the opaque company records exchanged with the
Apollo tool (the tool returns a JSON string; since JSON.stringify and
JSON.parse are mutually inverse on these values, the boundary is modelled
by the JSON value itself). -/
inductive Json where
  | str : String → Json
  | num : Int → Json
  | boolean : Bool → Json
  | null : Json
  | arr : List Json → Json
  | obj : List (String × Json) → Json

/-- JavaScript truthiness of a JSON value. -/
def Json.truthy : Json → Bool
  | .str s => s ≠ ""
  | .num n => n ≠ 0
  | .boolean b => b
  | .null => false
  | .arr _ => true
  | .obj _ => true

/-- Property access `j[k]` on a JSON value: defined for objects, first
matching key wins; anything else yields undefined (none). -/
def Json.getField : Json → String → Option Json
  | .obj fields, k => fields.lookup k
  | _, _ => none

/-- `j[k]` when it is truthy (the way the source tests fields with
`if (x.k)` and with `x.k || default`). -/
def Json.getTruthy (j : Json) (k : String) : Option Json :=
  match j.getField k with
  | some v => if v.truthy then some v else none
  | none => none

/-- JavaScript string coercion for the values stored into lead fields. -/
def Json.asString : Json → String
  | .str s => s
  | .num n => toString n
  | .boolean b => if b then "true" else "false"
  | .null => "null"
  | .arr _ => "[array]"
  | .obj _ => "[object Object]"

/-- `[a-zA-Z0-9]` character class. -/
def isAlnum (c : Char) : Bool := c.isAlpha || c.isDigit

/-- Split a list of characters on a separator character; mirrors how the
anchored DOMAIN_REGEX decomposes its subject around literal dots. -/
def splitOnChar (sep : Char) : List Char → List (List Char)
  | [] => [[]]
  | c :: cs =>
    if c = sep then [] :: splitOnChar sep cs
    else
      match splitOnChar sep cs with
      | [] => [[c]]
      | g :: gs => (c :: g) :: gs

/-- The shape `[a-zA-Z0-9][a-zA-Z0-9-]{1,61}[a-zA-Z0-9]` required of the
part before the dot: 3 to 63 characters, alphanumeric first and last
characters, hyphens allowed in between. -/
def firstLabelOk (l : List Char) : Bool :=
  decide (3 ≤ l.length) && decide (l.length ≤ 63) &&
  (match l.head? with | some c => isAlnum c | none => false) &&
  (match l.getLast? with | some c => isAlnum c | none => false) &&
  l.all (fun c => isAlnum c || c = '-')

/-- The shape `[a-zA-Z]{2,}` required of the part after the dot. -/
def tldOk (t : List Char) : Bool :=
  decide (2 ≤ t.length) && t.all (fun c => c.isAlpha)

/-- `validateDomain` from the agent source: test against
`DOMAIN_REGEX = /^[a-zA-Z0-9][a-zA-Z0-9-]{1,61}[a-zA-Z0-9]\.[a-zA-Z]{2,}$/`.
Since both character classes exclude the dot, the anchored regex matches
exactly the strings with a single dot separating a first label of the
required shape from a trailing all-alphabetic part. -/
def validateDomain (s : String) : Bool :=
  match splitOnChar '.' s.data with
  | [l, t] => firstLabelOk l && tldOk t
  | _ => false

/-- Character class `[a-z0-9-]` of the specification's domain-syntax
invariant (lowercase letters only). -/
def specLabelChar (c : Char) : Bool := c.isLower || c.isDigit || c = '-'

/-- The specification's domain-syntax invariant, as the claim states it:
the string is lowercase, every dot-separated label consists of characters
`[a-z0-9-]` and is 1 to 63 characters long, there is at least one dot,
and the final label is at least 2 alphabetic characters. -/
def specDomainInvariant (s : String) : Bool :=
  let labels := splitOnChar '.' s.data
  decide (2 ≤ labels.length) &&
  labels.all (fun l => decide (1 ≤ l.length) && decide (l.length ≤ 63) && l.all specLabelChar) &&
  (match labels.getLast? with
   | some t => decide (2 ≤ t.length) && t.all (fun c => c.isAlpha)
   | none => false)

/-- The language actually decided by DOMAIN_REGEX, stated independently of
`splitOnChar` as a decomposition property: exactly one dot, a first label
of 3 to 63 characters over `[A-Za-z0-9-]` with alphanumeric first and last
characters, and a trailing part of at least 2 ASCII letters. -/
def regexDomainSpec (s : String) : Prop :=
  ∃ l t : List Char,
    s.data = l ++ '.' :: t ∧ '.' ∉ l ∧ '.' ∉ t ∧
    3 ≤ l.length ∧ l.length ≤ 63 ∧
    (∀ c ∈ l, isAlnum c = true ∨ c = '-') ∧
    (∃ a, l.head? = some a ∧ isAlnum a = true) ∧
    (∃ b, l.getLast? = some b ∧ isAlnum b = true) ∧
    2 ≤ t.length ∧ (∀ c ∈ t, c.isAlpha = true)

/-- `String.prototype.trim`. -/
def trimStr (s : String) : String :=
  String.mk (((s.data.dropWhile Char.isWhitespace).reverse.dropWhile Char.isWhitespace).reverse)

/-- `String.prototype.toLowerCase`. -/
def toLowerStr (s : String) : String :=
  String.mk (s.data.map Char.toLower)

/-- The external capabilities a step can call out to. -/
inductive CapCall where
  | llm : CapCall
  | webSearch : CapCall
  | enrichApi : CapCall
deriving DecidableEq, Repr

/-- The body of a resolved Apollo HTTP response
(`{ organization?, error? }`). -/
structure ApolloBody where
  organization : Option Json
  error : Option String

/-- Outcome of the axios GET against the Apollo endpoint: either the
promise resolves with a status and body, or it rejects (network error,
timeout, non-2xx status) carrying the response status when one exists. -/
inductive ApolloResult where
  | success : Nat → ApolloBody → ApolloResult
  | fault : Option Nat → String → ApolloResult

/-- Helper building the `{ error, code }` JSON the tool returns on a
caught exception. -/
def toolErrJson (msg code : String) : Json :=
  Json.obj [("error", Json.str msg), ("code", Json.str code)]

/-- The Apollo enrichment tool of EnrichCompanyTool.ts, as a function of
the domain argument, the stubbed HTTP outcome and the presence of the API
key.  Returns the JSON value the tool would stringify, together with the
list of external calls it performed.  Note that the catch clause
serializes `error.name` as the code, so an EnrichmentError constructed
with code COMPANY_NOT_FOUND or INVALID_COMPANY_DATA surfaces with code
"EnrichmentError". -/
def enrichCompanyToolRun (domain : String) (apollo : ApolloResult)
    (apiKeyPresent : Bool) : Json × List CapCall :=
  if domain = "" then
    (toolErrJson "Domain is required and must be a string" "ValidationError", [])
  else
    if validateDomain (toLowerStr (trimStr domain)) = false then
      (toolErrJson ("Invalid domain format: " ++ toLowerStr (trimStr domain)) "ValidationError", [])
    else if apiKeyPresent = false then
      (toolErrJson "APOLLO_API_KEY not found in environment variables" "ValidationError", [])
    else
      match apollo with
      | .fault status msg =>
        (Json.obj [("error", Json.str ("Apollo API error: " ++ msg)),
                   ("code", Json.str "APOLLO_API_ERROR"),
                   ("statusCode", Json.num (Int.ofNat (status.getD 0)))],
         [CapCall.enrichApi])
      | .success status body =>
        if status ≠ 200 then
          (toolErrJson ("Apollo API returned status " ++ toString status) "APIError",
           [CapCall.enrichApi])
        else
          match body.error with
          | some e =>
            if e ≠ "" then (toolErrJson e "EnrichmentError", [CapCall.enrichApi])
            else
              match body.organization with
              | none => (toolErrJson "Company not found in Apollo database" "EnrichmentError",
                         [CapCall.enrichApi])
              | some company =>
                if (company.getTruthy "name").isSome && (company.getTruthy "website_url").isSome then
                  (company, [CapCall.enrichApi])
                else
                  (toolErrJson "Company data missing required fields" "EnrichmentError",
                   [CapCall.enrichApi])
          | none =>
            match body.organization with
            | none => (toolErrJson "Company not found in Apollo database" "EnrichmentError",
                       [CapCall.enrichApi])
            | some company =>
              if (company.getTruthy "name").isSome && (company.getTruthy "website_url").isSome then
                (company, [CapCall.enrichApi])
              else
                (toolErrJson "Company data missing required fields" "EnrichmentError",
                 [CapCall.enrichApi])

/-- The accumulating pipeline state built by Annotation.Root: messages and
leads carry appending reducers, the remaining channels keep the last
written value. -/
structure PipelineState where
  companyName : Option String := none
  companyDomain : Option String := none
  companyInfo : Option Json := none
  currentStep : Option String := none
  error : Option String := none
  leads : List Lead := []
  messages : List Message := []

/-- A partial state update as returned by a node: a channel not in the
update (none for the list channels too) is left to its previous value. -/
structure StateUpdate where
  companyName : Option String := none
  companyDomain : Option String := none
  companyInfo : Option Json := none
  currentStep : Option String := none
  error : Option String := none
  leads : Option (List Lead) := none
  messages : Option (List Message) := none

/-- The messages channel reducer of Annotation.Root: concatenate the
incoming message or message array onto the existing list. -/
def messagesReducer (left : List Message) (right : Message ⊕ List Message) : List Message :=
  match right with
  | .inl r => left ++ [r]
  | .inr rs => left ++ rs

/-- The leads channel reducer: same appending shape as the messages
reducer. -/
def leadsReducer (left : List Lead) (right : Lead ⊕ List Lead) : List Lead :=
  match right with
  | .inl r => left ++ [r]
  | .inr rs => left ++ rs

/-- Merge a node's partial update into the state, channel by channel:
last-value semantics for the scalar channels, the appending reducers for
leads and messages. -/
def mergeState (s : PipelineState) (u : StateUpdate) : PipelineState :=
  { companyName := match u.companyName with | some v => some v | none => s.companyName
    companyDomain := match u.companyDomain with | some v => some v | none => s.companyDomain
    companyInfo := match u.companyInfo with | some v => some v | none => s.companyInfo
    currentStep := match u.currentStep with | some v => some v | none => s.currentStep
    error := match u.error with | some v => some v | none => s.error
    leads := match u.leads with | some rs => leadsReducer s.leads (Sum.inr rs) | none => s.leads
    messages := match u.messages with | some rs => messagesReducer s.messages (Sum.inr rs) | none => s.messages }

/-- The stubbed responses of the external capabilities for one run:
each field is what the corresponding call would produce, with
Except.error meaning the call throws.  The lead-extraction model call is
represented by the outcome of the JSON-recovery cascade applied to its
text content (regex bracket match, then JSON.parse): none when parsing
throws, some j when it yields the JSON value j. -/
structure Oracle where
  queryLlm : Except String String
  apollo : ApolloResult
  apiKeyPresent : Bool
  search : Except String (List SearchResult)
  leadsLlm : Except String (Option Json)
  summaryLlm : Except String Message

/-- The `{ error, currentStep: "end" }` update every catch clause
produces. -/
def errorUpdate (msg : String) : StateUpdate :=
  { error := some msg, currentStep := some "end" }

/-- The process_query node: read the last message, ask the model for the
company domain, lowercase and validate it, and either store it and
advance to enrich or convert the failure into an error update. -/
def processQuery (state : PipelineState) (o : Oracle) : StateUpdate × List CapCall :=
  match state.messages.getLast? with
  | none => (errorUpdate "Invalid message content", [])
  | some lastMessage =>
    if lastMessage.content = "" then (errorUpdate "Invalid message content", [])
    else
      match o.queryLlm with
      | .error e => (errorUpdate e, [CapCall.llm])
      | .ok content =>
        if toLowerStr (trimStr content) = "invalid" ∨
            validateDomain (toLowerStr (trimStr content)) = false then
          (errorUpdate "Could not extract valid company domain", [CapCall.llm])
        else
          ({ companyDomain := some (toLowerStr (trimStr content)),
             currentStep := some "enrich" }, [CapCall.llm])

/-- The enrich node: require a regex-valid companyDomain, invoke the
Apollo tool, parse its JSON output.  A parse failure and a parsed value
bearing a truthy error field are both converted (through the inner
try/catch) into the fixed message "Failed to parse company data"; a
record without a truthy name is rejected; otherwise the record is stored
as companyInfo and the pipeline advances to search_managers. -/
def enrichCompanyData (state : PipelineState) (o : Oracle) : StateUpdate × List CapCall :=
  match state.companyDomain with
  | none => (errorUpdate "No company domain available", [])
  | some d =>
    if validateDomain d = false then (errorUpdate "Invalid domain format", [])
    else
      match ((enrichCompanyToolRun d o.apollo o.apiKeyPresent).1).getTruthy "error" with
      | some _ => (errorUpdate "Failed to parse company data",
                   (enrichCompanyToolRun d o.apollo o.apiKeyPresent).2)
      | none =>
        match ((enrichCompanyToolRun d o.apollo o.apiKeyPresent).1).getTruthy "name" with
        | none => (errorUpdate "Company data missing required fields",
                   (enrichCompanyToolRun d o.apollo o.apiKeyPresent).2)
        | some _ => ({ companyInfo := some (enrichCompanyToolRun d o.apollo o.apiKeyPresent).1,
                       currentStep := some "search_managers" },
                     (enrichCompanyToolRun d o.apollo o.apiKeyPresent).2)

/-- Normalization of one extracted lead object:
`{ name: lead.name || "Unknown", role: lead.role || "Unknown",
linkedin: lead.linkedin || lead.linkedin_url || "", email: lead.email || undefined }`. -/
def normalizeLead (j : Json) : Lead :=
  { name := match j.getTruthy "name" with | some v => v.asString | none => "Unknown"
    role := match j.getTruthy "role" with | some v => v.asString | none => "Unknown"
    linkedin := match j.getTruthy "linkedin" with
      | some v => v.asString
      | none => match j.getTruthy "linkedin_url" with | some v => v.asString | none => ""
    email := (j.getTruthy "email").map Json.asString }

/-- The fallback lead construction over `results.slice(0, 3)`:
`{ name: "Manager " + (index + 1), role: "Engineering Manager",
linkedin: result.url, email: undefined }`. -/
def placeholderLeadsAux : Nat → List SearchResult → List Lead
  | _, [] => []
  | i, r :: rest =>
    { name := "Manager " ++ toString (i + 1), role := "Engineering Manager",
      linkedin := r.url, email := none } :: placeholderLeadsAux (i + 1) rest

/-- Placeholder leads built directly from the raw search results, one per
result up to three. -/
def placeholderLeads (results : List SearchResult) : List Lead :=
  placeholderLeadsAux 0 (results.take 3)

/-- The search_managers node: require companyInfo.name, call the search
tool; zero results yield leads = [] and advance; otherwise call the model
and recover leads from its output, falling back to placeholder leads when
the JSON recovery throws, and to an empty list when it yields a non-array
value. -/
def searchManagerLeads (state : PipelineState) (o : Oracle) : StateUpdate × List CapCall :=
  match state.companyInfo with
  | none => (errorUpdate "No company name provided", [])
  | some info =>
    match info.getTruthy "name" with
    | none => (errorUpdate "No company name provided", [])
    | some _ =>
      match o.search with
      | .error e => (errorUpdate e, [CapCall.webSearch])
      | .ok results =>
        if results.isEmpty then
          ({ leads := some [], currentStep := some "summarize" }, [CapCall.webSearch])
        else
          match o.leadsLlm with
          | .error e => (errorUpdate e, [CapCall.webSearch, CapCall.llm])
          | .ok parsed =>
            ({ leads := some (match parsed with
                 | some (Json.arr xs) => xs.map normalizeLead
                 | some _ => []
                 | none => placeholderLeads results),
               currentStep := some "summarize" },
             [CapCall.webSearch, CapCall.llm])

/-- The summarize node: require companyInfo with a truthy name, call the
model once, and return `messages: [...state.messages, summary]` together
with `currentStep: "end"`. -/
def summarizeFindings (state : PipelineState) (o : Oracle) : StateUpdate × List CapCall :=
  match state.companyInfo with
  | none => (errorUpdate "Missing company information for summary", [])
  | some info =>
    match info.getTruthy "name" with
    | none => (errorUpdate "Missing company information for summary", [])
    | some _ =>
      match o.summaryLlm with
      | .error e => (errorUpdate e, [CapCall.llm])
      | .ok summary =>
        ({ messages := some (state.messages ++ [summary]), currentStep := some "end" },
         [CapCall.llm])

/-- One node execution as recorded in a run trace: the node name, the
update it returned and the external calls it made. -/
structure NodeRun where
  name : String
  update : StateUpdate
  calls : List CapCall

/-- The compiled graph.  The source wires
START → process_query → enrich → search_managers → summarize → END with
plain addEdge calls and no conditional edges, so every node runs exactly
once in that order whatever the state contains; each node's update is
merged into the state through the channel reducers. -/
def runPipeline (init : PipelineState) (o : Oracle) : PipelineState × List NodeRun :=
  let r0 := processQuery init o
  let s1 := mergeState init r0.1
  let r1 := enrichCompanyData s1 o
  let s2 := mergeState s1 r1.1
  let r2 := searchManagerLeads s2 o
  let s3 := mergeState s2 r2.1
  let r3 := summarizeFindings s3 o
  let s4 := mergeState s3 r3.1
  (s4, [⟨"process_query", r0.1, r0.2⟩, ⟨"enrich", r1.1, r1.2⟩,
        ⟨"search_managers", r2.1, r2.2⟩, ⟨"summarize", r3.1, r3.2⟩])

/-- The initial state processCompany builds: the trimmed query as the one
human message, currentStep process_query, empty leads. -/
def initState (q : String) : PipelineState :=
  { messages := [{ role := "human", content := trimStr q }],
    currentStep := some "process_query",
    leads := [] }

/-- The summary extraction of the entry point:
`result.messages?.[result.messages.length - 1]?.content || "No summary available"`. -/
def extractSummary (msgs : List Message) : String :=
  match msgs.getLast? with
  | some m => if m.content = "" then "No summary available" else m.content
  | none => "No summary available"

/-- The result envelope of processCompany. -/
structure ProcessResult where
  success : Bool
  summary : Option String := none
  companyDomain : Option String := none
  companyData : Option Json := none
  leads : Option (List Lead) := none
  error : Option String := none
  message : Option String := none

/-- JavaScript truthiness of the optional error string, as tested by
`if (result.error)`: an absent field and the empty string are both
falsy. -/
def optTruthy : Option String → Bool
  | some e => e ≠ ""
  | none => false

/-- The processCompany entry point: reject a blank query, run the
pipeline, and test the final state's error with `if (result.error)` -
a truthiness test, so an empty-string error selects the success
envelope - mapping a truthy error to the failure envelope and every
other final state to the success envelope. -/
def processCompany (companyQuery : String) (o : Oracle) : ProcessResult :=
  if trimStr companyQuery = "" then
    { success := false,
      error := some "Company query is required and must be a non-empty string",
      message := some "Failed to process company information" }
  else
    if optTruthy ((runPipeline (initState companyQuery) o).1).error = true then
      { success := false,
        error := ((runPipeline (initState companyQuery) o).1).error,
        message := some "Failed to process company information" }
    else
      { success := true,
        summary := some (extractSummary ((runPipeline (initState companyQuery) o).1).messages),
        companyDomain := ((runPipeline (initState companyQuery) o).1).companyDomain,
        companyData := ((runPipeline (initState companyQuery) o).1).companyInfo,
        leads := some ((runPipeline (initState companyQuery) o).1).leads }

/-- A successful Apollo organization record with the two required fields. -/
def orgOk : Json :=
  Json.obj [("name", Json.str "C2FO"), ("website_url", Json.str "https://www.c2fo.com")]

/-- Two LinkedIn-shaped search results. -/
def resultsOk : List SearchResult :=
  [{ title := "CTO - LinkedIn", url := "https://linkedin.com/in/cto-one", content := "CTO at C2FO" },
   { title := "VP Engineering - LinkedIn", url := "https://linkedin.com/in/vp-two", content := "VP Engineering at C2FO" }]

/-- An oracle on which every capability call succeeds. -/
def oracleOk : Oracle :=
  { queryLlm := Except.ok "c2fo.com",
    apollo := ApolloResult.success 200 { organization := some orgOk, error := none },
    apiKeyPresent := true,
    search := Except.ok resultsOk,
    leadsLlm := Except.ok (some (Json.arr [])),
    summaryLlm := Except.ok { role := "ai", content := "Summary of C2FO" } }

/-- A state in which enrichment already stored a company record. -/
def stWithInfo : PipelineState :=
  { companyDomain := some "c2fo.com",
    companyInfo := some orgOk,
    currentStep := some "search_managers",
    messages := [{ role := "human", content := "Leads for c2fo.com" }] }

/-- A regex-valid domain whose final label has 64 characters, one more
than the 63-character bound of the specification's invariant. -/
def longTldDomain : String := "abc." ++ String.mk (List.replicate 64 'a')

/-- The run on which the web search rejects (network fault) while every
other capability succeeds. -/
def oracleSearchFault : Oracle := { oracleOk with search := Except.error "Network timeout" }

/-- The run on which the web search rejects with an empty-message error
while every other capability succeeds: search_managers then writes
error = "", a falsy value under the entry point's truthiness test. -/
def oracleSearchEmptyFault : Oracle := { oracleOk with search := Except.error "" }

/-- A 200 Apollo response without an organization: the capability's
not-found outcome. -/
def apolloNotFound : ApolloResult :=
  ApolloResult.success 200 { organization := none, error := none }

/-- A rejected Apollo request (transport fault). -/
def apolloTimeout : ApolloResult :=
  ApolloResult.fault none "timeout of 10000ms exceeded"

/-- A 200 Apollo response whose organization record lacks the required
website_url field. -/
def apolloMissingFields : ApolloResult :=
  ApolloResult.success 200 { organization := some (Json.obj [("name", Json.str "C2FO")]),
                             error := none }

/-- State after the process_query node has run and been merged. -/
def stage1 (init : PipelineState) (o : Oracle) : PipelineState :=
  mergeState init (processQuery init o).1

/-- State after the enrich node has run and been merged. -/
def stage2 (init : PipelineState) (o : Oracle) : PipelineState :=
  mergeState (stage1 init o) (enrichCompanyData (stage1 init o) o).1

/-- State after the search_managers node has run and been merged. -/
def stage3 (init : PipelineState) (o : Oracle) : PipelineState :=
  mergeState (stage2 init o) (searchManagerLeads (stage2 init o) o).1

/-- State after the summarize node has run and been merged: the final
state of the run. -/
def stage4 (init : PipelineState) (o : Oracle) : PipelineState :=
  mergeState (stage3 init o) (summarizeFindings (stage3 init o) o).1

theorem splitOnChar_ne_nil (sep : Char) (cs : List Char) : splitOnChar sep cs ≠ [] := by
  induction cs with
  | nil => simp [splitOnChar]
  | cons c cs ih =>
    simp only [splitOnChar]
    split
    · simp
    · split
      · simp
      · simp

theorem splitOnChar_eq_single (sep : Char) (cs : List Char) : ∀ t,
    splitOnChar sep cs = [t] ↔ cs = t ∧ sep ∉ t := by
  induction cs with
  | nil =>
    intro t
    constructor
    · intro h
      rcases t with _ | ⟨a, t'⟩
      · simp
      · simp [splitOnChar] at h
    · rintro ⟨rfl, -⟩
      rfl
  | cons c cs ih =>
    intro t
    by_cases hc : c = sep
    · subst hc
      constructor
      · intro h
        simp only [splitOnChar, eq_self_iff_true, if_true, List.cons.injEq] at h
        exact absurd h.2 (splitOnChar_ne_nil c cs)
      · rintro ⟨rfl, hmem⟩
        exact absurd (List.mem_cons_self c cs) hmem
    · constructor
      · intro h
        simp only [splitOnChar, if_neg hc] at h
        rcases hsp : splitOnChar sep cs with _ | ⟨g, gs⟩
        · exact absurd hsp (splitOnChar_ne_nil sep cs)
        · rw [hsp] at h
          simp only [List.cons.injEq] at h
          obtain ⟨h1, h2⟩ := h
          have hg : splitOnChar sep cs = [g] := by rw [hsp, h2]
          obtain ⟨hcg, hmem⟩ := (ih g).1 hg
          subst hcg
          subst h1
          refine ⟨rfl, ?_⟩
          simp only [List.mem_cons, not_or]
          exact ⟨fun hsc => hc hsc.symm, hmem⟩
      · rintro ⟨rfl, hmem⟩
        simp only [List.mem_cons, not_or] at hmem
        have hres : splitOnChar sep cs = [cs] := (ih cs).2 ⟨rfl, hmem.2⟩
        simp only [splitOnChar, if_neg hc, hres]

theorem splitOnChar_eq_pair (sep : Char) (cs : List Char) : ∀ l t,
    splitOnChar sep cs = [l, t] ↔ cs = l ++ sep :: t ∧ sep ∉ l ∧ sep ∉ t := by
  induction cs with
  | nil =>
    intro l t
    constructor
    · intro h
      simp [splitOnChar] at h
    · rintro ⟨h, -, -⟩
      exact absurd h (by simp)
  | cons c cs ih =>
    intro l t
    by_cases hc : c = sep
    · subst hc
      constructor
      · intro h
        simp only [splitOnChar, eq_self_iff_true, if_true, List.cons.injEq] at h
        obtain ⟨h1, h2⟩ := h
        obtain ⟨hct, hmem⟩ := (splitOnChar_eq_single c cs t).1 h2
        subst hct
        subst h1
        exact ⟨rfl, by simp, hmem⟩
      · rintro ⟨heq, hl, ht⟩
        rcases l with _ | ⟨x, l'⟩
        · simp only [List.nil_append, List.cons.injEq] at heq
          have hres : splitOnChar c cs = [t] :=
            (splitOnChar_eq_single c cs t).2 ⟨heq.2, ht⟩
          simp only [splitOnChar, eq_self_iff_true, if_true, hres]
        · simp only [List.cons_append, List.cons.injEq] at heq
          exact absurd (heq.1 ▸ List.mem_cons_self x l') (heq.1 ▸ hl)
    · constructor
      · intro h
        simp only [splitOnChar, if_neg hc] at h
        rcases hsp : splitOnChar sep cs with _ | ⟨g, gs⟩
        · exact absurd hsp (splitOnChar_ne_nil sep cs)
        · rw [hsp] at h
          simp only [List.cons.injEq] at h
          obtain ⟨h1, h2⟩ := h
          have hg : splitOnChar sep cs = [g, t] := by rw [hsp, h2]
          obtain ⟨hcs, hgl, hmem⟩ := (ih g t).1 hg
          subst hcs
          subst h1
          refine ⟨rfl, ?_, hmem⟩
          simp only [List.mem_cons, not_or]
          exact ⟨fun hsc => hc hsc.symm, hgl⟩
      · rintro ⟨heq, hl, ht⟩
        rcases l with _ | ⟨x, l'⟩
        · simp only [List.nil_append, List.cons.injEq] at heq
          exact absurd heq.1 hc
        · simp only [List.cons_append, List.cons.injEq] at heq
          obtain ⟨hcx, hcs⟩ := heq
          subst hcx
          simp only [List.mem_cons, not_or] at hl
          have hres : splitOnChar sep cs = [l', t] := (ih l' t).2 ⟨hcs, hl.2, ht⟩
          simp only [splitOnChar, if_neg hc, hres]

theorem mergeState_error_none (s : PipelineState) (u : StateUpdate) :
    (mergeState s u).error = none ↔ u.error = none ∧ s.error = none := by
  simp only [mergeState]
  rcases u.error with _ | e <;> simp

theorem mergeState_domain_mono (s : PipelineState) (u : StateUpdate)
    (h : s.companyDomain.isSome = true) : (mergeState s u).companyDomain.isSome = true := by
  simp only [mergeState]
  rcases u.companyDomain with _ | d <;> simp [h]

theorem mergeState_info_mono (s : PipelineState) (u : StateUpdate)
    (h : s.companyInfo.isSome = true) : (mergeState s u).companyInfo.isSome = true := by
  simp only [mergeState]
  rcases u.companyInfo with _ | j <;> simp [h]

theorem mergeState_domain_src (s : PipelineState) (u : StateUpdate) (d : String)
    (h : (mergeState s u).companyDomain = some d) :
    u.companyDomain = some d ∨ (u.companyDomain = none ∧ s.companyDomain = some d) := by
  simp only [mergeState] at h
  cases hu : u.companyDomain with
  | none =>
    rw [hu] at h
    exact Or.inr ⟨rfl, h⟩
  | some d' =>
    rw [hu] at h
    simp only [Option.some.injEq] at h
    exact Or.inl (by rw [h])

theorem processQuery_shape (s : PipelineState) (o : Oracle) :
    (∃ m, (processQuery s o).1 = errorUpdate m) ∨
    (∃ d, validateDomain d = true ∧
      (processQuery s o).1 = { companyDomain := some d, currentStep := some "enrich" }) := by
  unfold processQuery
  split
  · exact Or.inl ⟨_, rfl⟩
  · split
    · exact Or.inl ⟨_, rfl⟩
    · split
      · exact Or.inl ⟨_, rfl⟩
      · split
        · exact Or.inl ⟨_, rfl⟩
        · rename_i hval
          refine Or.inr ⟨_, ?_, rfl⟩
          simp only [not_or] at hval
          simpa using hval.2

theorem enrichCompanyData_shape (s : PipelineState) (o : Oracle) :
    (∃ m, (enrichCompanyData s o).1 = errorUpdate m) ∨
    (∃ j, (enrichCompanyData s o).1 =
      { companyInfo := some j, currentStep := some "search_managers" }) := by
  unfold enrichCompanyData
  split
  · exact Or.inl ⟨_, rfl⟩
  · split
    · exact Or.inl ⟨_, rfl⟩
    · split
      · exact Or.inl ⟨_, rfl⟩
      · split
        · exact Or.inl ⟨_, rfl⟩
        · exact Or.inr ⟨_, rfl⟩

theorem searchManagerLeads_shape (s : PipelineState) (o : Oracle) :
    (∃ m, (searchManagerLeads s o).1 = errorUpdate m) ∨
    (∃ ls, (searchManagerLeads s o).1 =
      { leads := some ls, currentStep := some "summarize" }) := by
  unfold searchManagerLeads
  split
  · exact Or.inl ⟨_, rfl⟩
  · split
    · exact Or.inl ⟨_, rfl⟩
    · split
      · exact Or.inl ⟨_, rfl⟩
      · split
        · exact Or.inr ⟨_, rfl⟩
        · split
          · exact Or.inl ⟨_, rfl⟩
          · exact Or.inr ⟨_, rfl⟩

theorem summarizeFindings_shape (s : PipelineState) (o : Oracle) :
    (∃ m, (summarizeFindings s o).1 = errorUpdate m) ∨
    (∃ ms, (summarizeFindings s o).1 = { messages := some ms, currentStep := some "end" }) := by
  unfold summarizeFindings
  split
  · exact Or.inl ⟨_, rfl⟩
  · split
    · exact Or.inl ⟨_, rfl⟩
    · split
      · exact Or.inl ⟨_, rfl⟩
      · exact Or.inr ⟨_, rfl⟩

theorem runPipeline_fst (init : PipelineState) (o : Oracle) :
    (runPipeline init o).1 = stage4 init o := rfl

theorem errorUpdate_error (m : String) : (errorUpdate m).error = some m := rfl

theorem firstLabelOk_iff (l : List Char) :
    firstLabelOk l = true ↔
      3 ≤ l.length ∧ l.length ≤ 63 ∧ (∀ c ∈ l, isAlnum c = true ∨ c = '-') ∧
      (∃ a, l.head? = some a ∧ isAlnum a = true) ∧
      (∃ b, l.getLast? = some b ∧ isAlnum b = true) := by
  unfold firstLabelOk
  constructor
  · intro h
    simp only [Bool.and_eq_true, decide_eq_true_eq] at h
    obtain ⟨⟨⟨⟨h1, h2⟩, h3⟩, h4⟩, h5⟩ := h
    refine ⟨h1, h2, ?_, ?_, ?_⟩
    · intro c hc
      have hc' := List.all_eq_true.mp h5 c hc
      simpa using hc'
    · cases hh : l.head? with
      | none => rw [hh] at h3; cases h3
      | some a => rw [hh] at h3; exact ⟨a, rfl, h3⟩
    · cases hh : l.getLast? with
      | none => rw [hh] at h4; cases h4
      | some b => rw [hh] at h4; exact ⟨b, rfl, h4⟩
  · rintro ⟨h1, h2, h3, ⟨a, ha1, ha2⟩, ⟨b, hb1, hb2⟩⟩
    simp only [Bool.and_eq_true, decide_eq_true_eq]
    refine ⟨⟨⟨⟨h1, h2⟩, ?_⟩, ?_⟩, ?_⟩
    · rw [ha1]; exact ha2
    · rw [hb1]; exact hb2
    · refine List.all_eq_true.mpr ?_
      intro c hc
      rcases h3 c hc with h | h <;> simp [h]

theorem tldOk_iff (t : List Char) :
    tldOk t = true ↔ 2 ≤ t.length ∧ (∀ c ∈ t, c.isAlpha = true) := by
  unfold tldOk
  constructor
  · intro h
    simp only [Bool.and_eq_true, decide_eq_true_eq] at h
    exact ⟨h.1, fun c hc => List.all_eq_true.mp h.2 c hc⟩
  · rintro ⟨h1, h2⟩
    simp only [Bool.and_eq_true, decide_eq_true_eq]
    exact ⟨h1, List.all_eq_true.mpr fun c hc => h2 c hc⟩

theorem placeholderLeadsAux_length (i : Nat) (rs : List SearchResult) :
    (placeholderLeadsAux i rs).length = rs.length := by
  induction rs generalizing i with
  | nil => rfl
  | cons r rest ih => simp [placeholderLeadsAux, ih]

theorem placeholderLeads_length (rs : List SearchResult) :
    (placeholderLeads rs).length = min 3 rs.length := by
  simp [placeholderLeads, placeholderLeadsAux_length]

theorem placeholderLeadsAux_role (i : Nat) (rs : List SearchResult) :
    ∀ ld ∈ placeholderLeadsAux i rs, ld.role = "Engineering Manager" := by
  induction rs generalizing i with
  | nil => intro ld h; simp [placeholderLeadsAux] at h
  | cons r rest ih =>
    intro ld h
    simp only [placeholderLeadsAux, List.mem_cons] at h
    rcases h with rfl | h
    · rfl
    · exact ih _ ld h

theorem enrichCompanyData_no_domain (s : PipelineState) (o : Oracle) :
    ((enrichCompanyData s o).1).companyDomain = none := by
  rcases enrichCompanyData_shape s o with ⟨m, hup⟩ | ⟨j, hup⟩ <;> rw [hup] <;> rfl

theorem searchManagerLeads_no_domain (s : PipelineState) (o : Oracle) :
    ((searchManagerLeads s o).1).companyDomain = none := by
  rcases searchManagerLeads_shape s o with ⟨m, hup⟩ | ⟨ls, hup⟩ <;> rw [hup] <;> rfl

theorem summarizeFindings_no_domain (s : PipelineState) (o : Oracle) :
    ((summarizeFindings s o).1).companyDomain = none := by
  rcases summarizeFindings_shape s o with ⟨m, hup⟩ | ⟨ms, hup⟩ <;> rw [hup] <;> rfl

theorem enrichCompanyToolRun_calls_le (domain : String) (a : ApolloResult) (k : Bool) :
    ((enrichCompanyToolRun domain a k).2).length ≤ 1 := by
  unfold enrichCompanyToolRun
  repeat' split
  all_goals simp

/-- Claim C2, counterexample: the claim says validateDomain accepts exactly
the strings satisfying the specification's domain-syntax invariant; the
string "sub.example.com" satisfies the invariant (lowercase, three valid
labels, final label alphabetic of length 3) yet DOMAIN_REGEX rejects it,
since the regex admits exactly one dot. -/
theorem validateDomain_ne_specInvariant :
    ¬ (∀ s : String, validateDomain s = true ↔ specDomainInvariant s = true) := by
  intro h
  have h1 : validateDomain "sub.example.com" = true := (h "sub.example.com").2 (by decide)
  exact absurd h1 (by decide)

/-- Claim C2, amended: validateDomain (DOMAIN_REGEX) accepts a string
exactly when it consists of one dot separating a first label of 3 to 63
characters over `[A-Za-z0-9-]` beginning and ending alphanumeric from a
trailing part of at least 2 ASCII letters; unlike the specification's
invariant it is case-insensitive, rejects multi-label domains and first
labels shorter than 3 characters, and puts no upper bound on the length
of the final part. -/
theorem validateDomain_characterization (s : String) :
    validateDomain s = true ↔ regexDomainSpec s := by
  constructor
  · intro h
    unfold validateDomain at h
    split at h
    · rename_i l t hs
      obtain ⟨hsd, hnl, hnt⟩ := (splitOnChar_eq_pair '.' s.data l t).1 hs
      rw [Bool.and_eq_true] at h
      obtain ⟨h1, h2, h3, h4, h5⟩ := (firstLabelOk_iff l).1 h.1
      obtain ⟨h6, h7⟩ := (tldOk_iff t).1 h.2
      exact ⟨l, t, hsd, hnl, hnt, h1, h2, h3, h4, h5, h6, h7⟩
    · cases h
  · rintro ⟨l, t, hsd, hnl, hnt, h1, h2, h3, h4, h5, h6, h7⟩
    have hs : splitOnChar '.' s.data = [l, t] :=
      (splitOnChar_eq_pair '.' s.data l t).2 ⟨hsd, hnl, hnt⟩
    unfold validateDomain
    rw [hs]
    show (firstLabelOk l && tldOk t) = true
    rw [Bool.and_eq_true]
    exact ⟨(firstLabelOk_iff l).2 ⟨h1, h2, h3, h4, h5⟩, (tldOk_iff t).2 ⟨h6, h7⟩⟩

/-- Claim C9: the conversation never shrinks.  Both through the messages
reducer of the state schema and through a full merge of any step update,
the previous message list is an initial segment of the result, so
messages are only appended, never replaced or removed. -/
theorem conversation_append_only (l : List Message) (r : Message ⊕ List Message)
    (s : PipelineState) (u : StateUpdate) :
    (messagesReducer l r).take l.length = l ∧
    l.length ≤ (messagesReducer l r).length ∧
    ((mergeState s u).messages).take s.messages.length = s.messages ∧
    s.messages.length ≤ ((mergeState s u).messages).length := by
  refine ⟨?_, ?_, ?_, ?_⟩
  · cases r <;> simp [messagesReducer, List.take_left]
  · cases r <;> simp [messagesReducer]
  · simp only [mergeState]
    cases hu : u.messages with
    | none => simp [List.take_length]
    | some rs => simp [messagesReducer, List.take_left]
  · simp only [mergeState]
    cases hu : u.messages with
    | none => simp
    | some rs => simp [messagesReducer]

/-- Claim C10: a successful summarize step returns
messages = state.messages ++ [summary], and the channel reducer
concatenates that update onto the existing list, so the merged
conversation is the prior conversation twice followed by the summary
(2n+1 messages); the summary is still the last message, so the entry
point's summary extraction returns the summary text. -/
theorem summarize_doubles_conversation (s : PipelineState) (o : Oracle) (info : Json)
    (m : Message)
    (h1 : s.companyInfo = some info) (h2 : (info.getTruthy "name").isSome = true)
    (h3 : o.summaryLlm = Except.ok m) (h4 : m.content ≠ "") :
    (mergeState s (summarizeFindings s o).1).messages = s.messages ++ (s.messages ++ [m]) ∧
    (mergeState s (summarizeFindings s o).1).messages.length = 2 * s.messages.length + 1 ∧
    (mergeState s (summarizeFindings s o).1).messages.getLast? = some m ∧
    extractSummary (mergeState s (summarizeFindings s o).1).messages = m.content := by
  obtain ⟨v, hv⟩ := Option.isSome_iff_exists.mp h2
  have hstep : (summarizeFindings s o).1 =
      { messages := some (s.messages ++ [m]), currentStep := some "end" } := by
    simp only [summarizeFindings, h1, hv, h3]
  have hmsg : (mergeState s (summarizeFindings s o).1).messages =
      s.messages ++ (s.messages ++ [m]) := by
    rw [hstep]
    simp [mergeState, messagesReducer]
  refine ⟨hmsg, ?_, ?_, ?_⟩
  · rw [hmsg]
    simp only [List.length_append, List.length_cons, List.length_nil]
    omega
  · rw [hmsg, ← List.append_assoc, List.getLast?_concat]
  · unfold extractSummary
    rw [hmsg, ← List.append_assoc, List.getLast?_concat]
    simp [h4]

/-- Claim C10, witness: at a concrete state with one prior message and a
successful summary call, the merged conversation is the prior message
twice then the summary (3 messages), and the extracted summary is the
summary text. -/
theorem summarize_doubles_conversation_witness :
    (mergeState stWithInfo (summarizeFindings stWithInfo oracleOk).1).messages =
      stWithInfo.messages ++ (stWithInfo.messages ++
        [{ role := "ai", content := "Summary of C2FO" }]) ∧
    (mergeState stWithInfo (summarizeFindings stWithInfo oracleOk).1).messages.length =
      2 * stWithInfo.messages.length + 1 ∧
    (mergeState stWithInfo (summarizeFindings stWithInfo oracleOk).1).messages.getLast? =
      some { role := "ai", content := "Summary of C2FO" } ∧
    extractSummary (mergeState stWithInfo (summarizeFindings stWithInfo oracleOk).1).messages =
      ({ role := "ai", content := "Summary of C2FO" } : Message).content :=
  summarize_doubles_conversation stWithInfo oracleOk orgOk
    { role := "ai", content := "Summary of C2FO" } rfl rfl rfl (by decide)

theorem stage4_error_none_fields (init : PipelineState) (o : Oracle)
    (h : (stage4 init o).error = none) :
    (stage4 init o).companyDomain.isSome = true ∧ (stage4 init o).companyInfo.isSome = true := by
  have h4 : ((summarizeFindings (stage3 init o) o).1).error = none ∧ (stage3 init o).error = none :=
    (mergeState_error_none _ _).1 h
  have h3 : ((searchManagerLeads (stage2 init o) o).1).error = none ∧ (stage2 init o).error = none :=
    (mergeState_error_none _ _).1 h4.2
  have h2 : ((enrichCompanyData (stage1 init o) o).1).error = none ∧ (stage1 init o).error = none :=
    (mergeState_error_none _ _).1 h3.2
  have h1 : ((processQuery init o).1).error = none ∧ init.error = none :=
    (mergeState_error_none _ _).1 h2.2
  rcases processQuery_shape init o with ⟨m0, hup0⟩ | ⟨d, hval, hup0⟩
  · rw [hup0] at h1
    exact absurd h1.1 (by simp [errorUpdate])
  · rcases enrichCompanyData_shape (stage1 init o) o with ⟨m1, hup1⟩ | ⟨j, hup1⟩
    · rw [hup1] at h2
      exact absurd h2.1 (by simp [errorUpdate])
    · have hd1 : (stage1 init o).companyDomain.isSome = true := by
        show (mergeState init (processQuery init o).1).companyDomain.isSome = true
        rw [hup0]
        simp [mergeState]
      have hi2 : (stage2 init o).companyInfo.isSome = true := by
        show (mergeState (stage1 init o)
          (enrichCompanyData (stage1 init o) o).1).companyInfo.isSome = true
        rw [hup1]
        simp [mergeState]
      exact ⟨mergeState_domain_mono _ _ (mergeState_domain_mono _ _
              (mergeState_domain_mono _ _ hd1)),
             mergeState_info_mono _ _ (mergeState_info_mono _ _ hi2)⟩

theorem stage4_domain_valid (init : PipelineState) (o : Oracle) (d : String)
    (hinit : init.companyDomain = none)
    (h : (stage4 init o).companyDomain = some d) : validateDomain d = true := by
  have h4 := mergeState_domain_src (stage3 init o) (summarizeFindings (stage3 init o) o).1 d h
  rw [summarizeFindings_no_domain] at h4
  rcases h4 with hbad | ⟨-, h3s⟩
  · cases hbad
  · have h3 := mergeState_domain_src (stage2 init o) (searchManagerLeads (stage2 init o) o).1 d h3s
    rw [searchManagerLeads_no_domain] at h3
    rcases h3 with hbad | ⟨-, h2s⟩
    · cases hbad
    · have h2 := mergeState_domain_src (stage1 init o) (enrichCompanyData (stage1 init o) o).1 d h2s
      rw [enrichCompanyData_no_domain] at h2
      rcases h2 with hbad | ⟨-, h1s⟩
      · cases hbad
      · have h1 := mergeState_domain_src init (processQuery init o).1 d h1s
        rcases h1 with h1 | ⟨-, h1⟩
        · rcases processQuery_shape init o with ⟨m0, hup0⟩ | ⟨d', hval, hup0⟩
          · rw [hup0] at h1
            cases h1
          · rw [hup0] at h1
            have h1' : some d' = some d := h1
            injection h1' with h1''
            rw [← h1'']
            exact hval
        · rw [hinit] at h1
          cases h1

/-- Claim C7: when the web search of the search_managers step returns zero
results, the step's update is exactly leads = [] together with
currentStep = summarize (no error field), and the step made only the one
search call. -/
theorem leadSearch_zero_results (s : PipelineState) (o : Oracle) (info : Json)
    (h1 : s.companyInfo = some info) (h2 : (info.getTruthy "name").isSome = true)
    (h3 : o.search = Except.ok []) :
    (searchManagerLeads s o).1 = { leads := some [], currentStep := some "summarize" } ∧
    (searchManagerLeads s o).2 = [CapCall.webSearch] := by
  obtain ⟨v, hv⟩ := Option.isSome_iff_exists.mp h2
  constructor
  · simp [searchManagerLeads, h1, hv, h3]
  · simp [searchManagerLeads, h1, hv, h3]

/-- Claim C7, witness: at the concrete enriched state, a zero-result
search yields the empty-leads update advancing to summarize. -/
theorem leadSearch_zero_results_witness :
    (searchManagerLeads stWithInfo { oracleOk with search := Except.ok [] }).1 =
      { leads := some [], currentStep := some "summarize" } ∧
    (searchManagerLeads stWithInfo { oracleOk with search := Except.ok [] }).2 =
      [CapCall.webSearch] :=
  leadSearch_zero_results stWithInfo { oracleOk with search := Except.ok [] } orgOk rfl rfl rfl

/-- Claim C6: when the web search returns a non-empty result list and the
JSON recovery of the model's lead-extraction output throws (the output is
not valid structured data), the step produces exactly min(3, resultCount)
placeholder leads, one per result up to three with the generic role
"Engineering Manager", and advances to summarize without an error. -/
theorem leadSearch_parse_failure_fallback (s : PipelineState) (o : Oracle) (info : Json)
    (results : List SearchResult)
    (h1 : s.companyInfo = some info) (h2 : (info.getTruthy "name").isSome = true)
    (h3 : o.search = Except.ok results) (h4 : results ≠ [])
    (h5 : o.leadsLlm = Except.ok none) :
    ((searchManagerLeads s o).1).leads = some (placeholderLeads results) ∧
    (placeholderLeads results).length = min 3 results.length ∧
    (∀ ld ∈ placeholderLeads results, ld.role = "Engineering Manager") ∧
    ((searchManagerLeads s o).1).currentStep = some "summarize" ∧
    ((searchManagerLeads s o).1).error = none := by
  obtain ⟨v, hv⟩ := Option.isSome_iff_exists.mp h2
  rcases results with _ | ⟨r, rest⟩
  · exact absurd rfl h4
  · have hstep : (searchManagerLeads s o).1 =
        { leads := some (placeholderLeads (r :: rest)), currentStep := some "summarize" } := by
      simp [searchManagerLeads, h1, hv, h3, h5]
    refine ⟨by rw [hstep], placeholderLeads_length _, ?_, by rw [hstep], by rw [hstep]⟩
    exact placeholderLeadsAux_role 0 ((r :: rest).take 3)

/-- Claim C6, witness: with the two concrete search results and a model
output whose JSON recovery throws, the step stores exactly two placeholder
leads (min 3 2) with role "Engineering Manager" and advances. -/
theorem leadSearch_parse_failure_fallback_witness :
    ((searchManagerLeads stWithInfo { oracleOk with leadsLlm := Except.ok none }).1).leads =
      some (placeholderLeads resultsOk) ∧
    (placeholderLeads resultsOk).length = min 3 resultsOk.length ∧
    (∀ ld ∈ placeholderLeads resultsOk, ld.role = "Engineering Manager") ∧
    ((searchManagerLeads stWithInfo
        { oracleOk with leadsLlm := Except.ok none }).1).currentStep = some "summarize" ∧
    ((searchManagerLeads stWithInfo { oracleOk with leadsLlm := Except.ok none }).1).error =
      none :=
  leadSearch_parse_failure_fallback stWithInfo { oracleOk with leadsLlm := Except.ok none }
    orgOk resultsOk rfl rfl rfl (by decide) rfl

/-- Claim C8, counterexample: the claim says every step function performs
at most one external-capability call per invocation; at the enriched state
with a successful non-empty search, searchManagerLeads performs two calls
(the web search and then the lead-extraction model call). -/
theorem searchManagerLeads_two_calls :
    ¬ (∀ (s : PipelineState) (o : Oracle), ((searchManagerLeads s o).2).length ≤ 1) := by
  intro h
  have hb := h stWithInfo oracleOk
  have hcalls : (searchManagerLeads stWithInfo oracleOk).2 =
      [CapCall.webSearch, CapCall.llm] := rfl
  rw [hcalls] at hb
  simp at hb

/-- Claim C8, amended: processQuery, enrichCompanyData and
summarizeFindings each perform at most one external-capability call per
invocation; searchManagerLeads performs at most two (one web-search call,
plus one model call when the search succeeds with results). -/
theorem step_capability_call_bounds (s : PipelineState) (o : Oracle) :
    ((processQuery s o).2).length ≤ 1 ∧
    ((enrichCompanyData s o).2).length ≤ 1 ∧
    ((summarizeFindings s o).2).length ≤ 1 ∧
    ((searchManagerLeads s o).2).length ≤ 2 := by
  refine ⟨?_, ?_, ?_, ?_⟩
  · unfold processQuery
    repeat' split
    all_goals simp
  · unfold enrichCompanyData
    repeat' split
    all_goals simp [enrichCompanyToolRun_calls_le]
  · unfold summarizeFindings
    repeat' split
    all_goals simp
  · unfold searchManagerLeads
    repeat' split
    all_goals simp

/-- Claim C1: the claim says an error-bearing update short-circuits all
remaining steps.  The compiled graph wires the five nodes with
unconditional edges and never consults currentStep, so on the run whose
web search faults, the search_managers node returns an error update (trace
index 2) and the summarize node nevertheless still runs: it performs a
model call and writes messages (trace index 3), the final conversation has
grown to 3 messages, and the error is still present in the final state. -/
theorem pipeline_runs_steps_after_error :
    ((runPipeline (initState "Leads for c2fo.com") oracleSearchFault).2.map
        (fun n => n.update.error)).get? 2 = some (some "Network timeout") ∧
    ((runPipeline (initState "Leads for c2fo.com") oracleSearchFault).2.map
        (fun n => n.calls)).get? 3 = some [CapCall.llm] ∧
    ((runPipeline (initState "Leads for c2fo.com") oracleSearchFault).2.map
        (fun n => n.update.messages)).get? 3 =
      some (some [{ role := "human", content := "Leads for c2fo.com" },
                  { role := "ai", content := "Summary of C2FO" }]) ∧
    ((runPipeline (initState "Leads for c2fo.com") oracleSearchFault).1).error =
      some "Network timeout" ∧
    ((runPipeline (initState "Leads for c2fo.com") oracleSearchFault).1).messages.length = 3 :=
  ⟨rfl, rfl, rfl, rfl, rfl⟩

/-- Claim C5: the enrichment step collapses the tool's three error
outcomes into one indistinguishable state error.  With a valid domain:
a 200 response without an organization (capability not-found), a rejected
request (transport fault), and an organization missing required fields all
make enrichCompanyData set the same error "Failed to parse company data"
(because the parsed tool output carries a truthy error field, and the
step's inner catch replaces the original message); the stable code the
tool attaches to a not-found outcome is "EnrichmentError", not
COMPANY_NOT_FOUND; only the success outcome stores companyInfo and
advances. -/
theorem enrichStep_error_collapse :
    (enrichCompanyData stWithInfo { oracleOk with apollo := apolloNotFound }).1 =
      errorUpdate "Failed to parse company data" ∧
    (enrichCompanyData stWithInfo { oracleOk with apollo := apolloTimeout }).1 =
      errorUpdate "Failed to parse company data" ∧
    (enrichCompanyData stWithInfo { oracleOk with apollo := apolloMissingFields }).1 =
      errorUpdate "Failed to parse company data" ∧
    ((enrichCompanyToolRun "c2fo.com" apolloNotFound true).1).getField "code" =
      some (Json.str "EnrichmentError") ∧
    (enrichCompanyData stWithInfo oracleOk).1 =
      { companyInfo := some orgOk, currentStep := some "search_managers" } :=
  ⟨rfl, rfl, rfl, rfl, rfl⟩

/-- Claim C3, counterexample: the claim says no reachable state holds a
companyDomain failing the specification's domain-syntax invariant; on the
run whose model call extracts a domain with a 64-character final label,
processQuery stores it (DOMAIN_REGEX puts no upper bound on the final
label), every later step succeeds, and the final state carries that
invariant-violating domain with no error. -/
theorem storedDomain_violates_specInvariant :
    ((runPipeline (initState "Leads for that company")
        { oracleOk with queryLlm := Except.ok longTldDomain }).1).companyDomain =
      some longTldDomain ∧
    specDomainInvariant longTldDomain = false ∧
    ((runPipeline (initState "Leads for that company")
        { oracleOk with queryLlm := Except.ok longTldDomain }).1).error = none :=
  ⟨rfl, rfl, rfl⟩

/-- Claim C3, amended: the steps validate against the code's DOMAIN_REGEX
rather than the specification's invariant: on every run of the pipeline,
any string held in companyDomain in the final state passed validateDomain
(the only writer, processQuery, lowercases and validates before storing
and otherwise sets error; the other steps never write the field). -/
theorem companyDomain_always_regex_valid (q : String) (o : Oracle) (d : String)
    (h : ((runPipeline (initState q) o).1).companyDomain = some d) :
    validateDomain d = true :=
  stage4_domain_valid (initState q) o d rfl h

/-- Claim C3, amended, witness: the successful concrete run stores
"c2fo.com", which passes validateDomain. -/
theorem companyDomain_always_regex_valid_witness : validateDomain "c2fo.com" = true :=
  companyDomain_always_regex_valid "Leads for c2fo.com" oracleOk "c2fo.com" rfl

theorem processQuery_no_info (s : PipelineState) (o : Oracle) :
    ((processQuery s o).1).companyInfo = none := by
  rcases processQuery_shape s o with ⟨m, hup⟩ | ⟨d, hval, hup⟩ <;> rw [hup] <;> rfl

theorem enrichCompanyData_success_domain (s : PipelineState) (o : Oracle)
    (h : ((enrichCompanyData s o).1).error = none) : s.companyDomain.isSome = true := by
  cases hd : s.companyDomain with
  | some d => simp
  | none =>
    exfalso
    unfold enrichCompanyData at h
    rw [hd] at h
    simp [errorUpdate] at h

theorem stage4_falsy_error_fields (init : PipelineState) (o : Oracle)
    (hinfo : init.companyInfo = none)
    (h : (stage4 init o).error = none ∨ (stage4 init o).error = some "") :
    (stage4 init o).companyDomain.isSome = true ∧
    (stage4 init o).companyInfo.isSome = true := by
  rcases enrichCompanyData_shape (stage1 init o) o with ⟨m1, hup1⟩ | ⟨j, hup1⟩
  · exfalso
    have hi1 : (stage1 init o).companyInfo = none := by
      show (mergeState init (processQuery init o).1).companyInfo = none
      simp [mergeState, processQuery_no_info, hinfo]
    have hi2 : (stage2 init o).companyInfo = none := by
      show (mergeState (stage1 init o)
        (enrichCompanyData (stage1 init o) o).1).companyInfo = none
      rw [hup1]
      simp [mergeState, errorUpdate, hi1]
    have hu2 : (searchManagerLeads (stage2 init o) o).1 =
        errorUpdate "No company name provided" := by
      simp [searchManagerLeads, hi2]
    have hi3 : (stage3 init o).companyInfo = none := by
      show (mergeState (stage2 init o)
        (searchManagerLeads (stage2 init o) o).1).companyInfo = none
      rw [hu2]
      simp [mergeState, errorUpdate, hi2]
    have hu3 : (summarizeFindings (stage3 init o) o).1 =
        errorUpdate "Missing company information for summary" := by
      simp [summarizeFindings, hi3]
    have hfin : (stage4 init o).error = some "Missing company information for summary" := by
      show (mergeState (stage3 init o)
        (summarizeFindings (stage3 init o) o).1).error = some _
      rw [hu3]
      simp [mergeState, errorUpdate]
    rcases h with h | h <;> rw [hfin] at h <;> simp at h
  · have hd1 : (stage1 init o).companyDomain.isSome = true :=
      enrichCompanyData_success_domain (stage1 init o) o (by rw [hup1])
    have hi2 : (stage2 init o).companyInfo.isSome = true := by
      show (mergeState (stage1 init o)
        (enrichCompanyData (stage1 init o) o).1).companyInfo.isSome = true
      rw [hup1]
      simp [mergeState]
    exact ⟨mergeState_domain_mono _ _ (mergeState_domain_mono _ _
            (mergeState_domain_mono _ _ hd1)),
           mergeState_info_mono _ _ (mergeState_info_mono _ _ hi2)⟩

/-- Claim C4, counterexample: the claim says the entry point returns the
failure envelope exactly when the final pipeline state bears an error.
On the run whose web search rejects with an empty-message error, the
final state bears error = "" (search_managers wrote it and summarize,
which still runs, does not clear it), yet `if (result.error)` is a
truthiness test, "" is falsy, and processCompany returns the success
envelope, summary included. -/
theorem emptyError_success_envelope :
    ((runPipeline (initState "Leads for c2fo.com") oracleSearchEmptyFault).1).error =
      some "" ∧
    (processCompany "Leads for c2fo.com" oracleSearchEmptyFault).success = true ∧
    (processCompany "Leads for c2fo.com" oracleSearchEmptyFault).summary =
      some "Summary of C2FO" ∧
    (processCompany "Leads for c2fo.com" oracleSearchEmptyFault).error = none :=
  ⟨rfl, rfl, rfl, rfl⟩

/-- Claim C4, amended: for a non-blank query, processCompany returns the
failure envelope (success false with error and message set and no
summary) exactly when the final pipeline state bears a truthy error -
present and non-empty, matching the source's `if (result.error)`
truthiness test; on every other exit (error absent or the empty string)
it returns the success envelope with all five fields populated: summary,
companyDomain, companyData, leads (and success true), with error and
message absent. -/
theorem processCompany_envelope (q : String) (o : Oracle) (hq : trimStr q ≠ "") :
    ((processCompany q o).success = false ↔
      optTruthy ((runPipeline (initState q) o).1).error = true) ∧
    (optTruthy ((runPipeline (initState q) o).1).error = true →
      (processCompany q o).error.isSome = true ∧
      (processCompany q o).message.isSome = true ∧
      (processCompany q o).summary = none) ∧
    (optTruthy ((runPipeline (initState q) o).1).error = false →
      (processCompany q o).success = true ∧
      (processCompany q o).summary.isSome = true ∧
      (processCompany q o).companyDomain.isSome = true ∧
      (processCompany q o).companyData.isSome = true ∧
      (processCompany q o).leads.isSome = true ∧
      (processCompany q o).error = none ∧
      (processCompany q o).message = none) := by
  have hpc : processCompany q o =
      if optTruthy ((runPipeline (initState q) o).1).error = true then
        { success := false,
          error := ((runPipeline (initState q) o).1).error,
          message := some "Failed to process company information" }
      else
        { success := true,
          summary := some (extractSummary ((runPipeline (initState q) o).1).messages),
          companyDomain := ((runPipeline (initState q) o).1).companyDomain,
          companyData := ((runPipeline (initState q) o).1).companyInfo,
          leads := some ((runPipeline (initState q) o).1).leads } := by
    unfold processCompany
    rw [if_neg hq]
  by_cases ht : optTruthy ((runPipeline (initState q) o).1).error = true
  · rw [if_pos ht] at hpc
    rw [hpc]
    refine ⟨by simp [ht], fun _ => ⟨?_, rfl, rfl⟩, ?_⟩
    · cases he : ((runPipeline (initState q) o).1).error with
      | none =>
        rw [he] at ht
        cases ht
      | some e => simp [he]
    · intro hf
      rw [ht] at hf
      cases hf
  · have ht' : optTruthy ((runPipeline (initState q) o).1).error = false := by
      cases hb : optTruthy ((runPipeline (initState q) o).1).error with
      | false => rfl
      | true => exact absurd hb ht
    have hfalsy : ((runPipeline (initState q) o).1).error = none ∨
        ((runPipeline (initState q) o).1).error = some "" := by
      cases he : ((runPipeline (initState q) o).1).error with
      | none => exact Or.inl rfl
      | some e =>
        rw [he] at ht'
        simp only [optTruthy] at ht'
        right
        rw [decide_eq_false_iff_not] at ht'
        rw [not_not] at ht'
        rw [ht']
    obtain ⟨hdom, hinfo⟩ := stage4_falsy_error_fields (initState q) o rfl hfalsy
    rw [if_neg ht] at hpc
    rw [hpc]
    exact ⟨by simp [ht'], fun hf => absurd hf ht, fun _ => ⟨rfl, rfl, hdom, hinfo, rfl, rfl, rfl⟩⟩

/-- Claim C4, amended, witness: the envelope equivalence instantiated on
the concrete successful run with a non-blank query. -/
theorem processCompany_envelope_witness :
    ((processCompany "Leads for c2fo.com" oracleOk).success = false ↔
      optTruthy ((runPipeline (initState "Leads for c2fo.com") oracleOk).1).error = true) ∧
    (optTruthy ((runPipeline (initState "Leads for c2fo.com") oracleOk).1).error = true →
      (processCompany "Leads for c2fo.com" oracleOk).error.isSome = true ∧
      (processCompany "Leads for c2fo.com" oracleOk).message.isSome = true ∧
      (processCompany "Leads for c2fo.com" oracleOk).summary = none) ∧
    (optTruthy ((runPipeline (initState "Leads for c2fo.com") oracleOk).1).error = false →
      (processCompany "Leads for c2fo.com" oracleOk).success = true ∧
      (processCompany "Leads for c2fo.com" oracleOk).summary.isSome = true ∧
      (processCompany "Leads for c2fo.com" oracleOk).companyDomain.isSome = true ∧
      (processCompany "Leads for c2fo.com" oracleOk).companyData.isSome = true ∧
      (processCompany "Leads for c2fo.com" oracleOk).leads.isSome = true ∧
      (processCompany "Leads for c2fo.com" oracleOk).error = none ∧
      (processCompany "Leads for c2fo.com" oracleOk).message = none) :=
  processCompany_envelope "Leads for c2fo.com" oracleOk (by decide)
